import Mathlib

/-!
# coset: COSE_Sign1 command line tool

A shallow embedding of `cmd/coset/main.go`.

The program is glue around imported packages (`os`, `io`, `fmt`,
`encoding/pem`, `crypto/x509`, `crypto/ecdsa`, `github.com/veraison/go-cose`).
Those packages are not part of the program's source, so every function the
program calls in them is a field of the environment record `Env`: one run of
the program is described by what each call answers.  The program's own
functions are translated statement by statement into the `Run` monad, which
carries

* the way the function ends (`Res`): a normal return, a Go `panic`, or
  `os.Exit`;
* the ordered list of calls made into the imported packages (`Event`).

Go functions that return `(value, error)` are modelled as returning a pair
whose first component may be `none` (a nil pointer or nil interface) and whose
second component is `none` for a nil error.  The program decides what to do
with each component, exactly as the Go text does.

A Go string is a sequence of bytes.  The content type given with `-t` is kept
as its bytes, because it travels into the encoded message, where text that is
not UTF-8 is treated differently from text that is.  The other strings of the
program are file names, flags compared with constants, and messages.
-/

namespace Coset

/-! ## Data model -/

/-- A Go byte slice. -/
abbrev Bytes := List UInt8

/-- A Go `error` value, identified by its message. -/
abbrev Error := String

/-- Named curves of `crypto/elliptic`. -/
inductive Curve
  | P224
  | P256
  | P384
  | P521
  deriving DecidableEq, Repr

/-- The dynamic value behind a `crypto.PublicKey` interface: an
`*ecdsa.PublicKey`, or a key of another kind that `x509.ParsePKIXPublicKey`
can produce. -/
inductive PublicKey
  | ecdsa (curve : Curve) (X Y : Nat)
  | other (kind : String) (der : Bytes)
  deriving DecidableEq, Repr

/-- The record `ecdsa.PrivateKey`: the embedded public key and the scalar. -/
structure PrivateKey where
  Curve : Curve
  X : Nat
  Y : Nat
  D : Nat
  deriving DecidableEq, Repr

/-- The embedded public key of a private key (`&priv.PublicKey`). -/
def PrivateKey.PublicKey (priv : PrivateKey) : PublicKey :=
  .ecdsa priv.Curve priv.X priv.Y

/-- The record `pem.Block`; `Typ` is its field `Type`. -/
structure Block where
  Typ : String
  Headers : List (String × String)
  Bytes : List UInt8
  deriving DecidableEq, Repr

/-- An open `*os.File`, identified by the name it was opened with. -/
structure File where
  name : String
  deriving DecidableEq, Repr

/-- The values the program stores in a COSE header map: an algorithm
identifier, or a Go string given by its bytes. -/
inductive HeaderValue
  | alg (a : Int)
  | text (s : Bytes)
  deriving DecidableEq, Repr

/-- A `cose.ProtectedHeader`: a Go map from integer labels to values, kept as
an association list with at most one entry per label. -/
abbrev ProtectedHeader := List (Int × HeaderValue)

/-- The map assignment `h[k] = v`. -/
def ProtectedHeader.set (h : ProtectedHeader) (k : Int) (v : HeaderValue) : ProtectedHeader :=
  (k, v) :: h.filter (fun kv => kv.1 ≠ k)

/-- The map lookup `h[k]`. -/
def ProtectedHeader.get (h : ProtectedHeader) (k : Int) : Option HeaderValue :=
  h.lookup k

/-- Value of go-cose `HeaderLabelAlgorithm` (RFC 8152, table 2). -/
def HeaderLabelAlgorithm : Int := 1

/-- Value of go-cose `HeaderLabelContentType` (RFC 8152, table 2). -/
def HeaderLabelContentType : Int := 3

/-- Value of go-cose `AlgorithmES256` (RFC 8152, table 5). -/
def AlgorithmES256 : Int := -7

/-- The record `cose.Sign1Message`. -/
structure Sign1Message where
  Protected : ProtectedHeader
  Unprotected : List (Int × HeaderValue)
  Payload : Bytes
  Signature : Bytes
  deriving DecidableEq, Repr

/-- A `cose.Signer` made by `cose.NewSigner`. -/
structure Signer where
  alg : Int
  key : PrivateKey
  deriving DecidableEq, Repr

/-- A `cose.Verifier` made by `cose.NewVerifier`. -/
structure Verifier where
  alg : Int
  key : PublicKey
  deriving DecidableEq, Repr

/-- The process-wide random source `rand.Reader`. -/
inductive Rand
  | Reader
  deriving DecidableEq, Repr

/-- The command line flags after `flag.Parse()`. -/
structure Flags where
  g : String
  s : Bool
  k : String
  e : String
  m : String
  f : String
  t : Bytes
  o : String
  deriving DecidableEq, Repr

/-! ## Effects -/

/-- The value carried by a Go panic. -/
inductive PanicValue
  | error (e : Error)
  | text (s : String)
  | nilDereference
  deriving DecidableEq, Repr

/-- How a Go function ends. -/
inductive Res (α : Type)
  | ok (a : α)
  | panic (v : PanicValue)
  | exit (code : Int)
  deriving DecidableEq, Repr

/-- One call into an imported package, with its arguments.  `print` carries
the exact text written to standard output by `fmt.Println` or `fmt.Printf`. -/
inductive Event
  | print (text : String)
  | osOpen (path : String)
  | ioReadAll (file : Option File)
  | fileClose (file : Option File)
  | osCreate (name : String)
  | fileWrite (file : Option File) (b : Bytes)
  | pemDecode (b : Bytes)
  | pemEncode (file : Option File) (block : Block)
  | parseECPrivateKey (der : Bytes)
  | parsePKIXPublicKey (der : Bytes)
  | marshalECPrivateKey (pk : Option PrivateKey)
  | marshalPKIXPublicKey (pk : Option PublicKey)
  | ecdsaGenerateKey (curve : Curve)
  | newSigner (alg : Int) (key : Option PrivateKey)
  | sign1 (signer : Option Signer) (prot : ProtectedHeader) (payload external : Bytes)
  | marshalCBOR (msg : Option Sign1Message)
  | newVerifier (alg : Int) (key : Option PublicKey)
  | unmarshalCBOR (c : Bytes)
  | msgVerify (msg : Sign1Message) (external : Bytes) (verifier : Option Verifier)
  deriving DecidableEq, Repr

/-- A run of a Go function: how it ended and the calls it made, in order. -/
structure Run (α : Type) where
  res : Res α
  trace : List Event
  deriving DecidableEq

/-- Sequencing: the second part runs only after a normal return of the first. -/
def Run.bind {α β : Type} (x : Run α) (f : α → Run β) : Run β :=
  match x.res with
  | .ok a => ⟨(f a).res, x.trace ++ (f a).trace⟩
  | .panic v => ⟨.panic v, x.trace⟩
  | .exit c => ⟨.exit c, x.trace⟩

instance : Monad Run where
  pure a := ⟨.ok a, []⟩
  bind := Run.bind

/-- Record one call. -/
def emit (e : Event) : Run Unit := ⟨.ok (), [e]⟩

/-- The Go statement `panic(v)`. -/
def goPanic {α : Type} (v : PanicValue) : Run α := ⟨.panic v, []⟩

/-- The call `os.Exit(code)`. -/
def osExit {α : Type} (code : Int) : Run α := ⟨.exit code, []⟩

/-- The statement `defer file.Close()` followed by the rest of the function:
the deferred call runs when the function returns or panics, and does not run
when the process exits through `os.Exit`. -/
def deferClose {α : Type} (file : Option File) (body : Run α) : Run α :=
  match body.res with
  | .exit c => ⟨.exit c, body.trace⟩
  | r => ⟨r, body.trace ++ [.fileClose file]⟩

/-- Go `fmt.Println(s)`. -/
def Println (s : String) : Run Unit := emit (.print (s ++ "\n"))

/-- The text written to standard output during a run. -/
def printed : List Event → List String
  | [] => []
  | .print s :: es => s :: printed es
  | _ :: es => printed es

/-! ## The environment -/

/-- What the imported packages answer during one run.  Each field has the
argument list of the Go function it stands for. -/
structure Env where
  /-- Go `filepath.Base(os.Args[0])` -/
  me : String
  /-- Go `os.Open` -/
  osOpen : String → Option File × Option Error
  /-- Go `io.ReadAll` -/
  ioReadAll : Option File → Bytes × Option Error
  /-- Go `os.Create` -/
  osCreate : String → Option File × Option Error
  /-- Go `(*os.File).Write` -/
  fileWrite : Option File → Bytes → Int × Option Error
  /-- Go `pem.Decode` -/
  pemDecode : Bytes → Option Block × Bytes
  /-- Go `pem.Encode` -/
  pemEncode : Option File → Block → Option Error
  /-- Go `x509.ParseECPrivateKey` -/
  parseECPrivateKey : Bytes → Option PrivateKey × Option Error
  /-- Go `x509.ParsePKIXPublicKey` -/
  parsePKIXPublicKey : Bytes → Option PublicKey × Option Error
  /-- Go `x509.MarshalECPrivateKey` -/
  marshalECPrivateKey : Option PrivateKey → Bytes × Option Error
  /-- Go `x509.MarshalPKIXPublicKey` -/
  marshalPKIXPublicKey : Option PublicKey → Bytes × Option Error
  /-- Go `ecdsa.GenerateKey` -/
  ecdsaGenerateKey : Curve → Rand → Option PrivateKey × Option Error
  /-- Go `cose.NewSigner` -/
  newSigner : Int → Option PrivateKey → Option Signer × Option Error
  /-- Go `cose.Sign1` -/
  sign1 : Rand → Option Signer → ProtectedHeader → Bytes → Bytes →
    Option Sign1Message × Option Error
  /-- Go `(*cose.Sign1Message).MarshalCBOR` -/
  marshalCBOR : Option Sign1Message → Bytes × Option Error
  /-- Go `cose.NewVerifier` -/
  newVerifier : Int → Option PublicKey → Option Verifier × Option Error
  /-- Go `(*cose.Sign1Message).UnmarshalCBOR` on a zero-valued message: the
  message after the call, and the error. -/
  unmarshalCBOR : Bytes → Sign1Message × Option Error
  /-- Go `(*cose.Sign1Message).Verify` -/
  msgVerify : Sign1Message → Bytes → Option Verifier → Option Error
  /-- Go `base64.StdEncoding.DecodeString` -/
  base64Decode : String → Bytes × Option Error
  /-- Go `base64.StdEncoding.EncodeToString` -/
  base64Encode : Bytes → String
  /-- Go `hex.EncodeToString` -/
  hexEncode : Bytes → String
  /-- The conversion `string(b)` -/
  stringOfBytes : Bytes → String

/-! ## The program -/

/-- The constant `KeyEcdsa`. -/
def KeyEcdsa : String := "ecdsa"

/-- The conversion `[]byte(s)`. -/
def bytesOfString (s : String) : Bytes :=
  (s.data.map String.utf8EncodeChar).flatten

/-- Go `usage` (lines 50-54). -/
def usage {α : Type} (E : Env) : Run α := do
  emit (.print ("usage: " ++ E.me ++
    " [-g keytype] [-s] -m msg|-f file [-k file] [-e aad] [-t contet-type] [-o format]\n"))
  osExit 1

/-- The protected header built at the top of `sign` (lines 165-170). -/
def signProtected (ctype : Bytes) : ProtectedHeader :=
  let prot : ProtectedHeader := [(HeaderLabelAlgorithm, .alg AlgorithmES256)]
  if ctype ≠ [] then prot.set HeaderLabelContentType (.text ctype) else prot

/-- Go `sign` (lines 164-192).  The errors of `cose.NewSigner` and `cose.Sign1`
are assigned to `err` and overwritten by the next assignment; the first test
of `err` follows `MarshalCBOR`. -/
def sign (E : Env) (pk : Option PrivateKey) (c eaad ctype : Bytes) : Run Unit := do
  let prot := signProtected ctype
  emit (.newSigner AlgorithmES256 pk)
  let signer := (E.newSigner AlgorithmES256 pk).1
  emit (.sign1 signer prot c eaad)
  let msg := (E.sign1 .Reader signer prot c eaad).1
  emit (.marshalCBOR msg)
  match E.marshalCBOR msg with
  | (_, some err) => do
    Println "Failed to marshal signature into CBOR"
    goPanic (.error err)
  | (sig, none) => do
    emit (.osCreate "sig.cbor")
    match E.osCreate "sig.cbor" with
    | (_, some err) => do
      Println "Could not open file for writing"
      goPanic (.error err)
    | (file, none) =>
      deferClose file do
        emit (.fileWrite file sig)
        match E.fileWrite file sig with
        | (_, some err) => goPanic (.error err)
        | (n, none) =>
          if n ≠ (sig.length : Int) then goPanic (.text "Not all data written")
          else pure ()

/-- Go `verify` (lines 194-211). -/
def verify (E : Env) (pk : Option PublicKey) (c eaad : Bytes) :
    Run (Option Sign1Message × Option Error) := do
  emit (.newVerifier AlgorithmES256 pk)
  match E.newVerifier AlgorithmES256 pk with
  | (_, some err) => pure (none, some err)
  | (verifier, none) => do
    emit (.unmarshalCBOR c)
    match E.unmarshalCBOR c with
    | (_, some err) => pure (none, some err)
    | (msg, none) => do
      emit (.msgVerify msg eaad verifier)
      match E.msgVerify msg eaad verifier with
      | some err => pure (none, some err)
      | none => pure (some msg, none)

/-- Go `generateKey` (lines 213-220). -/
def generateKey (E : Env) (typ : String) : Run (Option PrivateKey × Option Error) :=
  if typ = KeyEcdsa then do
    emit (.ecdsaGenerateKey .P256)
    pure (E.ecdsaGenerateKey .P256 .Reader)
  else
    pure (none, some "unsupported key type")

/-- Go `loadPrivateKey` (lines 222-246).  `block.Type` dereferences the pointer
returned by `pem.Decode`, which is nil when no block was found. -/
def loadPrivateKey (E : Env) (path : String) : Run (Option PrivateKey × Option Error) := do
  emit (.osOpen path)
  match E.osOpen path with
  | (_, some err) => do
    Println "Could not open key file"
    pure (none, some err)
  | (file, none) =>
    deferClose file do
      emit (.ioReadAll file)
      match E.ioReadAll file with
      | (_, some err) => do
        Println "Failed to read key"
        pure (none, some err)
      | (b, none) => do
        emit (.pemDecode b)
        let block := (E.pemDecode b).1
        let rest := (E.pemDecode b).2
        if rest.length > 0 then
          emit (.print (toString rest.length ++ " bytes trailing in key file"))
        match block with
        | none => goPanic .nilDereference
        | some block =>
          if block.Typ = "EC PRIVATE KEY" then do
            emit (.parseECPrivateKey block.Bytes)
            pure (E.parseECPrivateKey block.Bytes)
          else
            pure (none, some "Invalid key type")

/-- Go `loadPublicKey` (lines 248-272). -/
def loadPublicKey (E : Env) (path : String) : Run (Option PublicKey × Option Error) := do
  emit (.osOpen path)
  match E.osOpen path with
  | (_, some err) => do
    Println "Could not open key file"
    pure (none, some err)
  | (file, none) =>
    deferClose file do
      emit (.ioReadAll file)
      match E.ioReadAll file with
      | (_, some err) => do
        Println "Failed to read key"
        pure (none, some err)
      | (b, none) => do
        emit (.pemDecode b)
        let block := (E.pemDecode b).1
        let rest := (E.pemDecode b).2
        if rest.length > 0 then
          emit (.print (toString rest.length ++ " bytes trailing in key file"))
        match block with
        | none => goPanic .nilDereference
        | some block =>
          if block.Typ = "PUBLIC KEY" then do
            emit (.parsePKIXPublicKey block.Bytes)
            pure (E.parsePKIXPublicKey block.Bytes)
          else
            pure (none, some "Invalid key type")

/-- Go `storePrivateKey` (lines 274-293). -/
def storePrivateKey (E : Env) (pk : Option PrivateKey) : Run Unit := do
  emit (.marshalECPrivateKey pk)
  match E.marshalECPrivateKey pk with
  | (_, some err) => goPanic (.error err)
  | (der, none) => do
    let block : Block := ⟨"EC PRIVATE KEY", [], der⟩
    emit (.osCreate "private.pem")
    match E.osCreate "private.pem" with
    | (_, some err) => do
      Println "Could not open file for writing"
      goPanic (.error err)
    | (fKey, none) =>
      deferClose fKey do
        emit (.pemEncode fKey block)
        match E.pemEncode fKey block with
        | some _ => Println "Failed to write public key"
        | none => pure ()

/-- Go `storePublicKey` (lines 295-314). -/
def storePublicKey (E : Env) (pk : Option PublicKey) : Run Unit := do
  emit (.marshalPKIXPublicKey pk)
  match E.marshalPKIXPublicKey pk with
  | (_, some err) => goPanic (.error err)
  | (der, none) => do
    let block : Block := ⟨"PUBLIC KEY", [], der⟩
    emit (.osCreate "public.pem")
    match E.osCreate "public.pem" with
    | (_, some err) => do
      Println "Could not open file for writing"
      goPanic (.error err)
    | (fKey, none) =>
      deferClose fKey do
        emit (.pemEncode fKey block)
        match E.pemEncode fKey block with
        | some _ => Println "Failed to write public key"
        | none => pure ()

/-- The method call `pk.Public()` on an `*ecdsa.PrivateKey`: it takes the
address of a field, which panics on a nil pointer. -/
def Public (pk : Option PrivateKey) : Run (Option PublicKey) :=
  match pk with
  | none => goPanic .nilDereference
  | some priv => pure (some priv.PublicKey)

/-- The signing branch of `main` (lines 119-140). -/
def mainSign (E : Env) (fl : Flags) (c eaad : Bytes) : Run Unit := do
  let pk ←
    if fl.k = "" then do
      match ← generateKey E KeyEcdsa with
      | (_, some err) => do
        Println "Could not generate key"
        goPanic (.error err)
      | (gpk, none) => pure gpk
    else do
      match ← loadPrivateKey E fl.k with
      | (_, some err) => goPanic (.error err)
      | (pk, none) => pure pk
  sign E pk c eaad fl.t
  if fl.k = "" then
    storePublicKey E (← Public pk)

/-- The verification branch of `main` (lines 141-161).  The error of
`loadPublicKey` is assigned to `err` and overwritten by the result of
`verify`; the only test of `err` follows `verify`. -/
def mainVerify (E : Env) (fl : Flags) (c eaad : Bytes) : Run Unit := do
  let pk := (← loadPublicKey E fl.k).1
  match ← verify E pk c eaad with
  | (_, some err) => goPanic (.error err)
  | (msg, none) =>
    match msg with
    | none => goPanic .nilDereference
    | some msg =>
      let str :=
        if fl.o = "text" then E.stringOfBytes msg.Payload
        else if fl.o = "hex" then E.hexEncode msg.Payload
        else if fl.o = "base64" then E.base64Encode msg.Payload
        else "Output format '" ++ fl.o ++ "' not supported"
      Println str

/-- The part of `main` after the content has been read (lines 109-161). -/
def mainWithContent (E : Env) (fl : Flags) (c : Bytes) : Run Unit := do
  let eaad ←
    if fl.e ≠ "" then
      match E.base64Decode fl.e with
      | (_, some err) => do
        Println "Failed to extract extra AAD"
        goPanic (.error err)
      | (eaad, none) => pure eaad
    else pure []
  if fl.s then mainSign E fl c eaad else mainVerify E fl c eaad

/-- Go `main` (lines 56-162), as a function of the parsed flags. -/
def main (E : Env) (fl : Flags) : Run Unit :=
  if fl.g ≠ "" then do
    match ← generateKey E fl.g with
    | (_, some err) => goPanic (.error err)
    | (pk, none) => do
      storePrivateKey E pk
      storePublicKey E (← Public pk)
  else do
    if !fl.s && fl.k = "" then do
      Println "No key provided"
      usage E
    if fl.m = "" && fl.f = "" then do
      Println "No content provided"
      usage E
    if fl.m ≠ "" && fl.f ≠ "" then do
      Println "Both message and file provided"
      usage E
    if fl.m ≠ "" then
      mainWithContent E fl (bytesOfString fl.m)
    else do
      emit (.osOpen fl.f)
      let file := (E.osOpen fl.f).1
      deferClose file do
        emit (.ioReadAll file)
        match E.ioReadAll file with
        | (_, some err) => goPanic (.error err)
        | (c, none) => mainWithContent E fl c

/-! ## Predicates used in the statements -/

/-- The bytes `lo ≤ b ≤ hi`. -/
def inRange (lo hi b : UInt8) : Bool := decide (lo ≤ b) && decide (b ≤ hi)

/-- UTF-8 validity as a scan over the bytes (RFC 3629, the acceptance ranges
of Go's `unicode/utf8`): `n` is the number of continuation bytes still
expected in the current character and `lo`, `hi` bound the next of them. -/
def validUTF8From : Nat → UInt8 → UInt8 → Bytes → Bool
  | 0, _, _, [] => true
  | _ + 1, _, _, [] => false
  | 0, _, _, b :: bs =>
    if b < 0x80 then validUTF8From 0 0x80 0xBF bs
    else if inRange 0xC2 0xDF b then validUTF8From 1 0x80 0xBF bs
    else if b = 0xE0 then validUTF8From 2 0xA0 0xBF bs
    else if b = 0xED then validUTF8From 2 0x80 0x9F bs
    else if inRange 0xE1 0xEF b then validUTF8From 2 0x80 0xBF bs
    else if b = 0xF0 then validUTF8From 3 0x90 0xBF bs
    else if inRange 0xF1 0xF3 b then validUTF8From 3 0x80 0xBF bs
    else if b = 0xF4 then validUTF8From 3 0x80 0x8F bs
    else false
  | n + 1, lo, hi, b :: bs =>
    if inRange lo hi b then validUTF8From n 0x80 0xBF bs else false

/-- The bytes are valid UTF-8 (Go's `utf8.Valid`). -/
def validUTF8 (b : Bytes) : Bool := validUTF8From 0 0x80 0xBF b

/-- Every text value of a header map is valid UTF-8. -/
def HeaderTextValid (h : ProtectedHeader) : Prop :=
  ∀ k t, (k, HeaderValue.text t) ∈ h → validUTF8 t = true

/-- The key file at `path` can be opened and read, and `pem.Decode` finds
`blk` as its first block. -/
def KeyFile (E : Env) (path : String) (blk : Block) : Prop :=
  (E.osOpen path).2 = none ∧
  (E.ioReadAll (E.osOpen path).1).2 = none ∧
  (E.pemDecode (E.ioReadAll (E.osOpen path).1).1).1 = some blk

/-- The key file at `path` can be opened and read, and `pem.Decode` finds no
block in it. -/
def KeyFileNoBlock (E : Env) (path : String) : Prop :=
  (E.osOpen path).2 = none ∧
  (E.ioReadAll (E.osOpen path).1).2 = none ∧
  (E.pemDecode (E.ioReadAll (E.osOpen path).1).1).1 = none

/-- What is left of a key file after its first block. -/
def keyFileRest (E : Env) (path : String) : Bytes :=
  (E.pemDecode (E.ioReadAll (E.osOpen path).1).1).2

/-- The warning printed for `n` trailing bytes: nothing when there are none. -/
def trailingWarning (n : Nat) : List String :=
  if n > 0 then [toString n ++ " bytes trailing in key file"] else []

/-! ## What the program relies on from go-cose -/

/-- The contract of the go-cose calls that a sign-then-verify round trip goes
through, stated for the values the library itself returns. -/
structure CoseContract (E : Env) : Prop where
  /-- A `Sign1` that reports no error returns a message. -/
  sign1_message : ∀ s prot payload ext,
    (E.sign1 .Reader s prot payload ext).2 = none →
    ∃ m, (E.sign1 .Reader s prot payload ext).1 = some m
  /-- A message returned by `Sign1` carries the protected header and the
  payload that were signed, and verifies under the verifier of the signer's
  public key with the external data that was signed. -/
  sign1_sound : ∀ priv s v prot payload ext m,
    E.newSigner AlgorithmES256 (some priv) = (some s, none) →
    E.newVerifier AlgorithmES256 (some priv.PublicKey) = (some v, none) →
    E.sign1 .Reader (some s) prot payload ext = (some m, none) →
    m.Protected = prot ∧ m.Payload = payload ∧ E.msgVerify m ext (some v) = none
  /-- Decoding an encoded message whose protected header holds only valid
  UTF-8 text succeeds and gives a message with the same payload that verifies
  exactly when the encoded one does. -/
  cbor_roundtrip : ∀ m sig,
    HeaderTextValid m.Protected →
    E.marshalCBOR (some m) = (sig, none) →
    (E.unmarshalCBOR sig).2 = none ∧
    (E.unmarshalCBOR sig).1.Payload = m.Payload ∧
    ∀ ext v, E.msgVerify (E.unmarshalCBOR sig).1 ext v = E.msgVerify m ext v

/-! ## A small environment for concrete runs

The definitions of this section are one possible set of answers of the
imported packages, with miniature stand-ins for the DER, PEM and CBOR
encodings and for the signature scheme.  They are used only to run the program
on concrete inputs. -/

namespace Sample

/-- A P-256 private key. -/
def keyA : PrivateKey := ⟨.P256, 11, 22, 33⟩

/-- Another P-256 private key. -/
def keyB : PrivateKey := ⟨.P256, 44, 55, 66⟩

/-- One byte per curve. -/
def curveTag : Curve → UInt8
  | .P224 => 0
  | .P256 => 1
  | .P384 => 2
  | .P521 => 3

/-- The curve of a tag byte. -/
def tagCurve (t : UInt8) : Option Curve :=
  if t = 0 then some .P224 else if t = 1 then some .P256
  else if t = 2 then some .P384 else if t = 3 then some .P521 else none

/-- Stand-in for `x509.MarshalECPrivateKey`: curve, scalar and point, one
byte each. -/
def marshalECPrivateKey : Option PrivateKey → Bytes × Option Error
  | none => ([], some "x509: nil private key")
  | some k => ([curveTag k.Curve, k.D.toUInt8, k.X.toUInt8, k.Y.toUInt8], none)

/-- Stand-in for `x509.ParseECPrivateKey`. -/
def parseECPrivateKey : Bytes → Option PrivateKey × Option Error
  | [t, d, x, y] =>
    match tagCurve t with
    | some c => (some ⟨c, x.toNat, y.toNat, d.toNat⟩, none)
    | none => (none, some "x509: unknown elliptic curve")
  | _ => (none, some "x509: failed to parse EC private key")

/-- Stand-in for `x509.MarshalPKIXPublicKey`. -/
def marshalPKIXPublicKey : Option PublicKey → Bytes × Option Error
  | some (.ecdsa c x y) => ([curveTag c, x.toUInt8, y.toUInt8], none)
  | _ => ([], some "x509: unsupported public key type")

/-- Stand-in for `x509.ParsePKIXPublicKey`. -/
def parsePKIXPublicKey : Bytes → Option PublicKey × Option Error
  | [t, x, y] =>
    match tagCurve t with
    | some c => (some (.ecdsa c x.toNat y.toNat), none)
    | none => (none, some "x509: unsupported elliptic curve")
  | _ => (none, some "x509: failed to parse public key")

/-- The block types of the miniature armor, by tag byte. -/
def blockType (t : UInt8) : Option String :=
  if t = 1 then some "EC PRIVATE KEY" else if t = 2 then some "PUBLIC KEY"
  else if t = 3 then some "CERTIFICATE" else none

/-- The end line of a block of the miniature armor: the end marker `-`
(byte 45), then the end of the input or a newline (byte 10).  The result is
what follows the line, and there is none when anything else follows the
marker on its line. -/
def endLine : Bytes → Option Bytes
  | [45] => some []
  | 45 :: 10 :: rest => some rest
  | _ => none

/-- Stand-in for `pem.Decode`: a block is a type tag, a length byte, that many
bytes of content and an end line; what follows the end line is returned as the
rest.  Input that does not start with such a block is returned whole, with no
block; as in `encoding/pem`, that includes a block whose end marker is
followed by other bytes on its line. -/
def pemDecode : Bytes → Option Block × Bytes
  | t :: n :: body =>
    match blockType t with
    | some ty =>
      if n.toNat ≤ body.length then
        match endLine (body.drop n.toNat) with
        | some rest => (some ⟨ty, [], body.take n.toNat⟩, rest)
        | none => (none, t :: n :: body)
      else (none, t :: n :: body)
    | none => (none, t :: n :: body)
  | b => (none, b)

/-- The key files of the sample file system.  `private-open.pem` is
`private.pem` without its final newline, and `private-open-x.pem` is that file
with one byte appended. -/
def files : List (String × Bytes) :=
  [("private.pem", [1, 4, 1, 33, 11, 22, 45, 10]),
   ("public.pem", [2, 3, 1, 11, 22, 45, 10]),
   ("private-padded.pem", [1, 4, 1, 33, 11, 22, 45, 10, 10, 10]),
   ("public-padded.pem", [2, 3, 1, 11, 22, 45, 10, 10]),
   ("private-open.pem", [1, 4, 1, 33, 11, 22, 45]),
   ("private-open-x.pem", [1, 4, 1, 33, 11, 22, 45, 120]),
   ("cert.pem", [3, 2, 7, 7, 45, 10]),
   ("notes.txt", [104, 101, 108, 108, 111]),
   ("empty.pem", [])]

/-- Stand-in for `os.Open`. -/
def osOpen (path : String) : Option File × Option Error :=
  match files.lookup path with
  | some _ => (some ⟨path⟩, none)
  | none => (none, some ("open " ++ path ++ ": no such file or directory"))

/-- Stand-in for `io.ReadAll`. -/
def ioReadAll : Option File → Bytes × Option Error
  | none => ([], some "invalid argument")
  | some f =>
    match files.lookup f.name with
    | some b => (b, none)
    | none => ([], some "file already closed")

/-- Stand-in for `os.Create`. -/
def osCreate (name : String) : Option File × Option Error :=
  (some ⟨name⟩, none)

/-- Stand-in for `(*os.File).Write`. -/
def fileWrite : Option File → Bytes → Int × Option Error
  | none, _ => (0, some "invalid argument")
  | some _, b => (b.length, none)

/-- Stand-in for `pem.Encode`. -/
def pemEncode : Option File → Block → Option Error
  | none, _ => some "invalid argument"
  | some _, _ => none

/-- Stand-in for `cose.NewSigner`: only ES256 with a P-256 key. -/
def newSigner (alg : Int) : Option PrivateKey → Option Signer × Option Error
  | none => (none, some "invalid key")
  | some k =>
    if alg = AlgorithmES256 ∧ k.Curve = .P256 then (some ⟨alg, k⟩, none)
    else (none, some "algorithm mismatch")

/-- Stand-in for `cose.NewVerifier`: only ES256 with a P-256 key. -/
def newVerifier (alg : Int) : Option PublicKey → Option Verifier × Option Error
  | some (.ecdsa .P256 x y) =>
    if alg = AlgorithmES256 then (some ⟨alg, .ecdsa .P256 x y⟩, none)
    else (none, some "algorithm mismatch")
  | _ => (none, some "invalid public key")

/-- Stand-in for the signature: a tag computed from the public point, the
external data and the payload. -/
def tag (key : PublicKey) (payload ext : Bytes) : Bytes :=
  match key with
  | .ecdsa _ x y => x.toUInt8 :: y.toUInt8 :: (ext ++ payload).reverse
  | .other _ _ => []

/-- Stand-in for `cose.Sign1`. -/
def sign1 (_ : Rand) : Option Signer → ProtectedHeader → Bytes → Bytes →
    Option Sign1Message × Option Error
  | none, _, _, _ => (none, some "signer is nil")
  | some s, prot, payload, ext =>
    (some ⟨prot, [], payload, tag s.key.PublicKey payload ext⟩, none)

/-- Stand-in for `(*cose.Sign1Message).Verify`. -/
def msgVerify (m : Sign1Message) (ext : Bytes) : Option Verifier → Option Error
  | none => some "verifier is nil"
  | some v =>
    if tag v.key m.Payload ext = [] then some "verification error"
    else if m.Signature = tag v.key m.Payload ext then none
    else some "verification error"

/-- One byte string of the miniature message encoding: every byte follows a
1, and a 0 ends the string. -/
def encodePayload : Bytes → Bytes
  | [] => [0]
  | b :: bs => 1 :: b :: encodePayload bs

/-- Inverse of `encodePayload`: the byte string and what follows it. -/
def decodePayload : Bytes → Option (Bytes × Bytes)
  | [] => none
  | [m] => if m = 0 then some ([], []) else none
  | m :: b :: bs =>
    if m = 0 then some ([], b :: bs)
    else match decodePayload bs with
      | some (p, r) => some (b :: p, r)
      | none => none

/-- The content type of a protected header: the text under the content-type
label, empty when there is none. -/
def contentType (h : ProtectedHeader) : Bytes :=
  match h.get HeaderLabelContentType with
  | some (.text t) => t
  | _ => []

/-- Stand-in for `(*cose.Sign1Message).MarshalCBOR`: the content type of the
protected header, written as it is, then the payload, then the signature. -/
def marshalCBOR : Option Sign1Message → Bytes × Option Error
  | none => ([], some "cbor: MarshalCBOR on nil Sign1Message pointer")
  | some m =>
    if m.Signature = [] then ([], some "empty signature")
    else
      (encodePayload (contentType m.Protected) ++ encodePayload m.Payload ++ m.Signature,
        none)

/-- Stand-in for `(*cose.Sign1Message).UnmarshalCBOR`: as the CBOR decoder
does, it refuses a text string that is not valid UTF-8. -/
def unmarshalCBOR (c : Bytes) : Sign1Message × Option Error :=
  match decodePayload c with
  | some (ct, r) =>
    match decodePayload r with
    | some (p, sig) =>
      if validUTF8 ct = false then (⟨[], [], [], []⟩, some "cbor: invalid UTF-8 string")
      else if sig = [] then (⟨[], [], [], []⟩, some "cbor: invalid COSE_Sign1 object")
      else (⟨signProtected ct, [], p, sig⟩, none)
    | none => (⟨[], [], [], []⟩, some "cbor: invalid COSE_Sign1 object")
  | none => (⟨[], [], [], []⟩, some "cbor: invalid COSE_Sign1 object")

/-- The sample environment: every call succeeds where it can. -/
def env : Env where
  me := "coset"
  osOpen := osOpen
  ioReadAll := ioReadAll
  osCreate := osCreate
  fileWrite := fileWrite
  pemDecode := pemDecode
  pemEncode := pemEncode
  parseECPrivateKey := parseECPrivateKey
  parsePKIXPublicKey := parsePKIXPublicKey
  marshalECPrivateKey := marshalECPrivateKey
  marshalPKIXPublicKey := marshalPKIXPublicKey
  ecdsaGenerateKey := fun _ _ => (some keyB, none)
  newSigner := newSigner
  sign1 := sign1
  marshalCBOR := marshalCBOR
  newVerifier := newVerifier
  unmarshalCBOR := unmarshalCBOR
  msgVerify := msgVerify
  base64Decode := fun _ => ([], some "illegal base64 data")
  base64Encode := fun _ => ""
  hexEncode := fun _ => ""
  stringOfBytes := fun _ => ""

/-- The sample environment with a random source that fails: `cose.Sign1`
and `ecdsa.GenerateKey` report the failure and return nil. -/
def envNoEntropy : Env :=
  { env with
    sign1 := fun _ _ _ _ _ => (none, some "entropy source unavailable")
    ecdsaGenerateKey := fun _ _ => (none, some "entropy source unavailable") }

end Sample

/-! ## Lemmas on runs -/

theorem Run.mem_bind_left {α β : Type} (x : Run α) (f : α → Run β) (e : Event)
    (h : e ∈ x.trace) : e ∈ (x >>= f).trace := by
  show e ∈ (Run.bind x f).trace
  unfold Run.bind
  split <;> simp [h]

theorem Run.mem_bind_right {α β : Type} (x : Run α) (f : α → Run β) (a : α)
    (hx : x.res = .ok a) (e : Event) (h : e ∈ (f a).trace) : e ∈ (x >>= f).trace := by
  show e ∈ (Run.bind x f).trace
  unfold Run.bind
  rw [hx]
  simp [h]

theorem printed_append (xs ys : List Event) :
    printed (xs ++ ys) = printed xs ++ printed ys := by
  induction xs with
  | nil => rfl
  | cons e es ih => cases e <;> simp [printed, ih]

/-! ## The protected header -/

/-- C3: the protected header that `sign` builds and hands to `cose.Sign1` maps
the algorithm label to ES256, maps the content-type label to exactly `ctype`
when `ctype` is non-empty and leaves it out otherwise, and has no other
label. -/
theorem sign_protected_header (ctype : Bytes) :
    (signProtected ctype).get HeaderLabelAlgorithm = some (.alg AlgorithmES256) ∧
    (signProtected ctype).get HeaderLabelContentType
      = (if ctype = [] then none else some (.text ctype)) ∧
    (∀ l, l ≠ HeaderLabelAlgorithm → l ≠ HeaderLabelContentType →
      (signProtected ctype).get l = none) ∧
    (∀ (E : Env) (pk : Option PrivateKey) (c eaad : Bytes), ∃ rest,
      (sign E pk c eaad ctype).trace =
        .newSigner AlgorithmES256 pk ::
        .sign1 (E.newSigner AlgorithmES256 pk).1 (signProtected ctype) c eaad :: rest) := by
  refine ⟨?_, ?_, ?_, ?_⟩
  · by_cases h : ctype = [] <;>
      simp [signProtected, ProtectedHeader.get, ProtectedHeader.set, h, List.lookup,
        HeaderLabelAlgorithm, HeaderLabelContentType]
  · by_cases h : ctype = [] <;>
      simp [signProtected, ProtectedHeader.get, ProtectedHeader.set, h, List.lookup,
        HeaderLabelAlgorithm, HeaderLabelContentType]
  · intro l h1 h3
    have e1 : (l == HeaderLabelAlgorithm) = false := beq_eq_false_iff_ne.mpr h1
    have e3 : (l == HeaderLabelContentType) = false := beq_eq_false_iff_ne.mpr h3
    by_cases h : ctype = [] <;>
      simp [signProtected, ProtectedHeader.get, ProtectedHeader.set, h, List.lookup, e1, e3]
  · intro E pk c eaad
    exact ⟨_, rfl⟩

/-- The only text in the protected header that `sign` builds is the content
type. -/
theorem signProtected_text (ctype : Bytes) (k : Int) (t : Bytes)
    (h : (k, HeaderValue.text t) ∈ signProtected ctype) : t = ctype := by
  by_cases hc : ctype = [] <;>
    simp [signProtected, ProtectedHeader.set, hc] at h
  exact h.2

/-! ## Key generation -/

/-- C4: for a key type other than "ecdsa", `generateKey` returns no key and
the error "unsupported key type" without any call to the key generator; for
"ecdsa" it makes one call to `ecdsa.GenerateKey` on P-256 and returns that
call's key and error unchanged. -/
theorem generateKey_only_ecdsa (E : Env) (typ : String) :
    (typ ≠ "ecdsa" →
      generateKey E typ = ⟨.ok (none, some "unsupported key type"), []⟩) ∧
    (typ = "ecdsa" →
      generateKey E typ =
        ⟨.ok (E.ecdsaGenerateKey .P256 .Reader), [.ecdsaGenerateKey .P256]⟩) := by
  constructor
  · intro h
    simp [generateKey, KeyEcdsa, h, pure]
  · intro h
    simp [generateKey, KeyEcdsa, h, pure, bind, Run.bind, emit]

/-- C4, on concrete inputs: "rsa" is refused without a call, "ecdsa" returns
the generated key. -/
theorem generateKey_only_ecdsa_witness :
    generateKey Sample.env "rsa" = ⟨.ok (none, some "unsupported key type"), []⟩ ∧
    generateKey Sample.env "ecdsa" =
      ⟨.ok (some Sample.keyB, none), [.ecdsaGenerateKey .P256]⟩ :=
  ⟨(generateKey_only_ecdsa Sample.env "rsa").1 (by decide),
   (generateKey_only_ecdsa Sample.env "ecdsa").2 rfl⟩

/-! ## Verification -/

/-- C2: `verify` returns a message and a nil error exactly when the verifier
is built, the input decodes and the signature check passes, and the message
is then the decoded one; otherwise it returns no message and the error of the
first step that failed, and the steps after that one are not called. -/
theorem verify_all_or_nothing (E : Env) (pk : Option PublicKey) (c eaad : Bytes) :
    ((E.newVerifier AlgorithmES256 pk).2 = none ∧
      (E.unmarshalCBOR c).2 = none ∧
      E.msgVerify (E.unmarshalCBOR c).1 eaad (E.newVerifier AlgorithmES256 pk).1 = none →
      verify E pk c eaad =
        ⟨.ok (some (E.unmarshalCBOR c).1, none),
         [.newVerifier AlgorithmES256 pk, .unmarshalCBOR c,
          .msgVerify (E.unmarshalCBOR c).1 eaad (E.newVerifier AlgorithmES256 pk).1]⟩) ∧
    (∀ err, (E.newVerifier AlgorithmES256 pk).2 = some err →
      verify E pk c eaad = ⟨.ok (none, some err), [.newVerifier AlgorithmES256 pk]⟩) ∧
    (∀ err, (E.newVerifier AlgorithmES256 pk).2 = none →
      (E.unmarshalCBOR c).2 = some err →
      verify E pk c eaad =
        ⟨.ok (none, some err), [.newVerifier AlgorithmES256 pk, .unmarshalCBOR c]⟩) ∧
    (∀ err, (E.newVerifier AlgorithmES256 pk).2 = none →
      (E.unmarshalCBOR c).2 = none →
      E.msgVerify (E.unmarshalCBOR c).1 eaad (E.newVerifier AlgorithmES256 pk).1 = some err →
      verify E pk c eaad =
        ⟨.ok (none, some err),
         [.newVerifier AlgorithmES256 pk, .unmarshalCBOR c,
          .msgVerify (E.unmarshalCBOR c).1 eaad (E.newVerifier AlgorithmES256 pk).1]⟩) ∧
    ((∃ m, (verify E pk c eaad).res = .ok (some m, none)) ↔
      ((E.newVerifier AlgorithmES256 pk).2 = none ∧
        (E.unmarshalCBOR c).2 = none ∧
        E.msgVerify (E.unmarshalCBOR c).1 eaad (E.newVerifier AlgorithmES256 pk).1 = none)) := by
  rcases hv : E.newVerifier AlgorithmES256 pk with ⟨v, ev⟩
  rcases hu : E.unmarshalCBOR c with ⟨m, eu⟩
  cases ev with
  | some e => simp [verify, hv, bind, Run.bind, emit, pure]
  | none =>
    cases eu with
    | some e => simp [verify, hv, hu, bind, Run.bind, emit, pure]
    | none =>
      cases hm : E.msgVerify m eaad v with
      | some e => simp [verify, hv, hu, hm, bind, Run.bind, emit, pure]
      | none => simp [verify, hv, hu, hm, bind, Run.bind, emit, pure]

/-- C2, on concrete inputs: an envelope signed with key A verifies under the
public key of A and is refused, with no message, under the public key of B. -/
theorem verify_all_or_nothing_witness :
    verify Sample.env (some Sample.keyA.PublicKey) [0, 1, 7, 0, 11, 22, 7] [] =
      ⟨.ok (some ⟨signProtected [], [], [7], [11, 22, 7]⟩, none),
       [.newVerifier AlgorithmES256 (some Sample.keyA.PublicKey),
        .unmarshalCBOR [0, 1, 7, 0, 11, 22, 7],
        .msgVerify ⟨signProtected [], [], [7], [11, 22, 7]⟩ [] (some ⟨AlgorithmES256, Sample.keyA.PublicKey⟩)]⟩ ∧
    verify Sample.env (some Sample.keyB.PublicKey) [0, 1, 7, 0, 11, 22, 7] [] =
      ⟨.ok (none, some "verification error"),
       [.newVerifier AlgorithmES256 (some Sample.keyB.PublicKey),
        .unmarshalCBOR [0, 1, 7, 0, 11, 22, 7],
        .msgVerify ⟨signProtected [], [], [7], [11, 22, 7]⟩ [] (some ⟨AlgorithmES256, Sample.keyB.PublicKey⟩)]⟩ :=
  ⟨(verify_all_or_nothing Sample.env (some Sample.keyA.PublicKey) [0, 1, 7, 0, 11, 22, 7] []).1
      (by decide),
   (verify_all_or_nothing Sample.env (some Sample.keyB.PublicKey) [0, 1, 7, 0, 11, 22, 7] []).2.2.2.1
      "verification error" (by decide) (by decide) (by decide)⟩

/-! ## Loading keys -/

/-- The run of `loadPrivateKey` on a readable key file with a first block. -/
theorem loadPrivateKey_of_keyFile (E : Env) (path : String) (blk : Block)
    (h : KeyFile E path blk) :
    loadPrivateKey E path =
      ⟨.ok (if blk.Typ = "EC PRIVATE KEY" then E.parseECPrivateKey blk.Bytes
            else (none, some "Invalid key type")),
       [.osOpen path, .ioReadAll (E.osOpen path).1,
        .pemDecode (E.ioReadAll (E.osOpen path).1).1] ++
       (trailingWarning (keyFileRest E path).length).map Event.print ++
       (if blk.Typ = "EC PRIVATE KEY" then [.parseECPrivateKey blk.Bytes] else []) ++
       [.fileClose (E.osOpen path).1]⟩ := by
  obtain ⟨h1, h2, h3⟩ := h
  unfold keyFileRest
  rcases ho : E.osOpen path with ⟨f, eo⟩
  rw [ho] at h1 h2 h3
  rcases hr : E.ioReadAll f with ⟨b, er⟩
  simp only [hr] at h2 h3 ⊢
  simp only at h1 h2
  subst h1 h2
  by_cases hrest : (E.pemDecode b).2.length > 0 <;> by_cases hty : blk.Typ = "EC PRIVATE KEY" <;>
    simp [loadPrivateKey, ho, hr, h3, hrest, hty, bind, Run.bind, emit, pure, deferClose,
      trailingWarning]

/-- The run of `loadPublicKey` on a readable key file with a first block. -/
theorem loadPublicKey_of_keyFile (E : Env) (path : String) (blk : Block)
    (h : KeyFile E path blk) :
    loadPublicKey E path =
      ⟨.ok (if blk.Typ = "PUBLIC KEY" then E.parsePKIXPublicKey blk.Bytes
            else (none, some "Invalid key type")),
       [.osOpen path, .ioReadAll (E.osOpen path).1,
        .pemDecode (E.ioReadAll (E.osOpen path).1).1] ++
       (trailingWarning (keyFileRest E path).length).map Event.print ++
       (if blk.Typ = "PUBLIC KEY" then [.parsePKIXPublicKey blk.Bytes] else []) ++
       [.fileClose (E.osOpen path).1]⟩ := by
  obtain ⟨h1, h2, h3⟩ := h
  unfold keyFileRest
  rcases ho : E.osOpen path with ⟨f, eo⟩
  rw [ho] at h1 h2 h3
  rcases hr : E.ioReadAll f with ⟨b, er⟩
  simp only [hr] at h2 h3 ⊢
  simp only at h1 h2
  subst h1 h2
  by_cases hrest : (E.pemDecode b).2.length > 0 <;> by_cases hty : blk.Typ = "PUBLIC KEY" <;>
    simp [loadPublicKey, ho, hr, h3, hrest, hty, bind, Run.bind, emit, pure, deferClose,
      trailingWarning]

/-- C5: a readable key file whose first block is not of type "EC PRIVATE KEY"
makes `loadPrivateKey` return no key and the error "Invalid key type" without
a call to `x509.ParseECPrivateKey`; and, on its own, a readable key file whose
first block is not of type "PUBLIC KEY" makes `loadPublicKey` return no key
and the same error without a call to `x509.ParsePKIXPublicKey`. -/
theorem load_fails_closed (E : Env) :
    (∀ (p : String) (b : Block), KeyFile E p b → b.Typ ≠ "EC PRIVATE KEY" →
      (loadPrivateKey E p).res = .ok (none, some "Invalid key type") ∧
      ∀ der, Event.parseECPrivateKey der ∉ (loadPrivateKey E p).trace) ∧
    (∀ (q : String) (b : Block), KeyFile E q b → b.Typ ≠ "PUBLIC KEY" →
      (loadPublicKey E q).res = .ok (none, some "Invalid key type") ∧
      ∀ der, Event.parsePKIXPublicKey der ∉ (loadPublicKey E q).trace) := by
  constructor
  · intro p b hp hb
    rw [loadPrivateKey_of_keyFile E p b hp]
    simp [hb]
  · intro q b hq hb
    rw [loadPublicKey_of_keyFile E q b hq]
    simp [hb]

/-- C5, on concrete inputs: the private loader refuses the public key file
and a certificate file, and the public loader refuses the private key file. -/
theorem load_fails_closed_witness :
    ((loadPrivateKey Sample.env "public.pem").res = .ok (none, some "Invalid key type") ∧
      ∀ der, Event.parseECPrivateKey der ∉ (loadPrivateKey Sample.env "public.pem").trace) ∧
    ((loadPrivateKey Sample.env "cert.pem").res = .ok (none, some "Invalid key type") ∧
      ∀ der, Event.parseECPrivateKey der ∉ (loadPrivateKey Sample.env "cert.pem").trace) ∧
    ((loadPublicKey Sample.env "private.pem").res = .ok (none, some "Invalid key type") ∧
      ∀ der, Event.parsePKIXPublicKey der ∉ (loadPublicKey Sample.env "private.pem").trace) :=
  ⟨(load_fails_closed Sample.env).1 "public.pem" ⟨"PUBLIC KEY", [], [1, 11, 22]⟩
      ⟨rfl, rfl, by decide⟩ (by decide),
   (load_fails_closed Sample.env).1 "cert.pem" ⟨"CERTIFICATE", [], [7, 7]⟩
      ⟨rfl, rfl, by decide⟩ (by decide),
   (load_fails_closed Sample.env).2 "private.pem" ⟨"EC PRIVATE KEY", [], [1, 33, 11, 22]⟩
      ⟨rfl, rfl, by decide⟩ (by decide)⟩

/-- The block that `storePrivateKey` hands to `pem.Encode` has type
"EC PRIVATE KEY". -/
theorem storePrivateKey_block_type (E : Env) (pk : Option PrivateKey) (f : Option File)
    (blk : Block) (h : Event.pemEncode f blk ∈ (storePrivateKey E pk).trace) :
    blk.Typ = "EC PRIVATE KEY" := by
  rcases hm : E.marshalECPrivateKey pk with ⟨der, _ | e⟩ <;>
  rcases hc : E.osCreate "private.pem" with ⟨g, _ | e'⟩ <;>
  cases he : E.pemEncode g ⟨"EC PRIVATE KEY", [], der⟩ <;>
  simp [storePrivateKey, hm, hc, he, bind, Run.bind, emit, pure, deferClose, goPanic,
    Println] at h <;>
  simp [h]

/-- The block that `storePublicKey` hands to `pem.Encode` has type
"PUBLIC KEY". -/
theorem storePublicKey_block_type (E : Env) (pk : Option PublicKey) (f : Option File)
    (blk : Block) (h : Event.pemEncode f blk ∈ (storePublicKey E pk).trace) :
    blk.Typ = "PUBLIC KEY" := by
  rcases hm : E.marshalPKIXPublicKey pk with ⟨der, _ | e⟩ <;>
  rcases hc : E.osCreate "public.pem" with ⟨g, _ | e'⟩ <;>
  cases he : E.pemEncode g ⟨"PUBLIC KEY", [], der⟩ <;>
  simp [storePublicKey, hm, hc, he, bind, Run.bind, emit, pure, deferClose, goPanic,
    Println] at h <;>
  simp [h]

/-- C6: a key file holding the block that `storePrivateKey` writes passes the
type gate of `loadPrivateKey` (the EC parser is called on its bytes and its
answer returned) and is refused by `loadPublicKey` with "Invalid key type";
and, on its own, a key file holding the block that `storePublicKey` writes
passes the type gate of `loadPublicKey` and is refused by `loadPrivateKey`
with the same error. -/
theorem store_load_type_gate (E : Env) :
    (∀ (pk : Option PrivateKey) (f : Option File) (blk : Block) (p : String),
      Event.pemEncode f blk ∈ (storePrivateKey E pk).trace → KeyFile E p blk →
      (loadPrivateKey E p).res = .ok (E.parseECPrivateKey blk.Bytes) ∧
      Event.parseECPrivateKey blk.Bytes ∈ (loadPrivateKey E p).trace ∧
      (loadPublicKey E p).res = .ok (none, some "Invalid key type")) ∧
    (∀ (pub : Option PublicKey) (g : Option File) (blk : Block) (q : String),
      Event.pemEncode g blk ∈ (storePublicKey E pub).trace → KeyFile E q blk →
      (loadPublicKey E q).res = .ok (E.parsePKIXPublicKey blk.Bytes) ∧
      Event.parsePKIXPublicKey blk.Bytes ∈ (loadPublicKey E q).trace ∧
      (loadPrivateKey E q).res = .ok (none, some "Invalid key type")) := by
  constructor
  · intro pk f blk p hs hp
    have e := storePrivateKey_block_type E pk f blk hs
    rw [loadPrivateKey_of_keyFile E p blk hp, loadPublicKey_of_keyFile E p blk hp]
    simp [e]
  · intro pub g blk q ht hq
    have e := storePublicKey_block_type E pub g blk ht
    rw [loadPrivateKey_of_keyFile E q blk hq, loadPublicKey_of_keyFile E q blk hq]
    simp [e]

/-- C6, on concrete inputs: the blocks stored for key A and its public key,
read back from the two key files. -/
theorem store_load_type_gate_witness :
    ((loadPrivateKey Sample.env "private.pem").res = .ok (some Sample.keyA, none) ∧
      Event.parseECPrivateKey [1, 33, 11, 22] ∈ (loadPrivateKey Sample.env "private.pem").trace ∧
      (loadPublicKey Sample.env "private.pem").res = .ok (none, some "Invalid key type")) ∧
    ((loadPublicKey Sample.env "public.pem").res = .ok (some Sample.keyA.PublicKey, none) ∧
      Event.parsePKIXPublicKey [1, 11, 22] ∈ (loadPublicKey Sample.env "public.pem").trace ∧
      (loadPrivateKey Sample.env "public.pem").res = .ok (none, some "Invalid key type")) :=
  ⟨(store_load_type_gate Sample.env).1 (some Sample.keyA) (some ⟨"private.pem"⟩)
      ⟨"EC PRIVATE KEY", [], [1, 33, 11, 22]⟩ "private.pem" (by decide) ⟨rfl, rfl, by decide⟩,
   (store_load_type_gate Sample.env).2 (some Sample.keyA.PublicKey) (some ⟨"public.pem"⟩)
      ⟨"PUBLIC KEY", [], [1, 11, 22]⟩ "public.pem" (by decide) ⟨rfl, rfl, by decide⟩⟩

/-- C7 as stated fails: `private-open.pem` holds a well-formed first block and
`private-open-x.pem` is the same file with one byte appended.  The first loads
(the private loader returns key A, the public loader the type error); in the
second `pem.Decode` finds no block, and both loaders print the warning and end
in a panic. -/
theorem trailing_bytes_not_always_tolerated :
    KeyFile Sample.env "private-open.pem" ⟨"EC PRIVATE KEY", [], [1, 33, 11, 22]⟩ ∧
    (Sample.env.ioReadAll (Sample.env.osOpen "private-open-x.pem").1).1 =
      (Sample.env.ioReadAll (Sample.env.osOpen "private-open.pem").1).1 ++ [120] ∧
    (loadPrivateKey Sample.env "private-open.pem").res = .ok (some Sample.keyA, none) ∧
    (loadPrivateKey Sample.env "private-open-x.pem").res = .panic .nilDereference ∧
    (loadPublicKey Sample.env "private-open.pem").res = .ok (none, some "Invalid key type") ∧
    (loadPublicKey Sample.env "private-open-x.pem").res = .panic .nilDereference ∧
    printed (loadPrivateKey Sample.env "private-open-x.pem").trace =
      ["8 bytes trailing in key file"] := by
  refine ⟨⟨rfl, rfl, by decide⟩, by decide, by decide, by decide, by decide, by decide,
    by decide⟩

/-- C7, amended: for two readable key files in which `pem.Decode` finds the
same first block, whatever follows the block, `loadPrivateKey` returns the
same key and error on both, and so does `loadPublicKey`; each call returns
normally, and what it prints is the trailing-bytes warning of its own file and
nothing else. -/
theorem trailing_bytes_warn_only (E : Env) (p q : String) (blk : Block)
    (hp : KeyFile E p blk) (hq : KeyFile E q blk) :
    (loadPrivateKey E p).res = (loadPrivateKey E q).res ∧
    (loadPublicKey E p).res = (loadPublicKey E q).res ∧
    (∃ r, (loadPrivateKey E q).res = .ok r) ∧
    (∃ r, (loadPublicKey E q).res = .ok r) ∧
    printed (loadPrivateKey E p).trace = trailingWarning (keyFileRest E p).length ∧
    printed (loadPrivateKey E q).trace = trailingWarning (keyFileRest E q).length ∧
    printed (loadPublicKey E p).trace = trailingWarning (keyFileRest E p).length ∧
    printed (loadPublicKey E q).trace = trailingWarning (keyFileRest E q).length := by
  rw [loadPrivateKey_of_keyFile E p blk hp, loadPublicKey_of_keyFile E p blk hp,
    loadPrivateKey_of_keyFile E q blk hq, loadPublicKey_of_keyFile E q blk hq]
  have hw : ∀ n, printed ((trailingWarning n).map Event.print) = trailingWarning n := by
    intro n
    unfold trailingWarning
    split <;> simp [printed]
  refine ⟨rfl, rfl, ⟨_, rfl⟩, ⟨_, rfl⟩, ?_, ?_, ?_, ?_⟩ <;>
    · simp only [printed_append, hw]
      split <;> simp [printed]

/-- C7, amended, on concrete inputs: the private key file and the same file
with two newlines appended give the same key; only the second prints a
warning. -/
theorem trailing_bytes_warn_only_witness :
    (loadPrivateKey Sample.env "private.pem").res
      = (loadPrivateKey Sample.env "private-padded.pem").res ∧
    (loadPublicKey Sample.env "private.pem").res
      = (loadPublicKey Sample.env "private-padded.pem").res ∧
    (∃ r, (loadPrivateKey Sample.env "private-padded.pem").res = .ok r) ∧
    (∃ r, (loadPublicKey Sample.env "private-padded.pem").res = .ok r) ∧
    printed (loadPrivateKey Sample.env "private.pem").trace
      = trailingWarning (keyFileRest Sample.env "private.pem").length ∧
    printed (loadPrivateKey Sample.env "private-padded.pem").trace
      = trailingWarning (keyFileRest Sample.env "private-padded.pem").length ∧
    printed (loadPublicKey Sample.env "private.pem").trace
      = trailingWarning (keyFileRest Sample.env "private.pem").length ∧
    printed (loadPublicKey Sample.env "private-padded.pem").trace
      = trailingWarning (keyFileRest Sample.env "private-padded.pem").length :=
  trailing_bytes_warn_only Sample.env "private.pem" "private-padded.pem"
    ⟨"EC PRIVATE KEY", [], [1, 33, 11, 22]⟩ ⟨rfl, rfl, by decide⟩ ⟨rfl, rfl, by decide⟩

/-- C8: on a readable key file in which `pem.Decode` finds no block, both
loaders end in a nil-pointer panic at `block.Type`; neither returns a key or
an error value. -/
theorem load_panics_without_block (E : Env) (p : String) (h : KeyFileNoBlock E p) :
    (loadPrivateKey E p).res = .panic .nilDereference ∧
    (loadPublicKey E p).res = .panic .nilDereference := by
  obtain ⟨h1, h2, h3⟩ := h
  rcases ho : E.osOpen p with ⟨f, eo⟩
  rw [ho] at h1 h2 h3
  rcases hr : E.ioReadAll f with ⟨b, er⟩
  simp only [hr] at h2 h3
  simp only at h1 h2
  subst h1 h2
  constructor <;> by_cases hrest : (E.pemDecode b).2.length > 0 <;>
    simp [loadPrivateKey, loadPublicKey, ho, hr, h3, hrest, bind, Run.bind, emit, pure,
      deferClose, goPanic]

/-- C8, on a concrete input: an empty key file. -/
theorem load_panics_without_block_witness :
    (loadPrivateKey Sample.env "empty.pem").res = .panic .nilDereference ∧
    (loadPublicKey Sample.env "empty.pem").res = .panic .nilDereference :=
  load_panics_without_block Sample.env "empty.pem" ⟨rfl, rfl, by decide⟩

/-! ## Signing and the round trip -/

/-- The sample byte-string encoding can be read back, whatever follows it. -/
theorem Sample.decode_encodePayload (p s : Bytes) :
    Sample.decodePayload (Sample.encodePayload p ++ s) = some (p, s) := by
  induction p with
  | nil =>
    cases s with
    | nil => simp [Sample.encodePayload, Sample.decodePayload]
    | cons b bs => simp [Sample.encodePayload, Sample.decodePayload]
  | cons b bs ih =>
    simp [Sample.encodePayload, Sample.decodePayload, ih]

/-- A value found by a lookup is an entry of the map. -/
theorem lookup_mem (h : ProtectedHeader) (k : Int) (v : HeaderValue)
    (hl : h.lookup k = some v) : (k, v) ∈ h := by
  induction h with
  | nil => simp [List.lookup] at hl
  | cons kv rest ih =>
    obtain ⟨k₂, v₂⟩ := kv
    by_cases hk : k = k₂
    · subst hk
      simp [List.lookup] at hl
      simp [hl]
    · have hb : (k == k₂) = false := beq_eq_false_iff_ne.mpr hk
      simp only [List.lookup, hb] at hl
      exact List.mem_cons_of_mem _ (ih hl)

/-- The content type of a header with valid text is valid. -/
theorem Sample.contentType_valid (h : ProtectedHeader) (hh : HeaderTextValid h) :
    validUTF8 (Sample.contentType h) = true := by
  unfold Sample.contentType
  split
  · rename_i t ht
    exact hh _ t (lookup_mem h _ _ ht)
  · rfl

/-- The sample environment meets the go-cose contract. -/
theorem Sample.env_contract : CoseContract Sample.env where
  sign1_message := by
    intro s prot payload ext h
    cases s with
    | none => simp [Sample.env, Sample.sign1] at h
    | some s => exact ⟨_, rfl⟩
  sign1_sound := by
    intro priv s v prot payload ext m hs hv hm
    obtain ⟨c, x, y, d⟩ := priv
    simp only [Sample.env, Sample.newSigner] at hs
    split at hs
    · rename_i hc
      simp only [Prod.mk.injEq, Option.some.injEq, and_true] at hs
      subst hs
      obtain ⟨-, hc⟩ := hc
      subst hc
      simp only [Sample.env, Sample.newVerifier, PrivateKey.PublicKey, if_true,
        Prod.mk.injEq, Option.some.injEq, and_true] at hv
      subst hv
      simp only [Sample.env, Sample.sign1, Prod.mk.injEq, Option.some.injEq, and_true] at hm
      subst hm
      simp [Sample.env, Sample.msgVerify, Sample.tag, PrivateKey.PublicKey]
    · simp at hs
  cbor_roundtrip := by
    intro m sig hh h
    have hct := Sample.contentType_valid m.Protected hh
    simp only [Sample.env, Sample.marshalCBOR] at h
    split at h
    · simp at h
    · rename_i hne
      simp only [Prod.mk.injEq, and_true] at h
      subst h
      simp [Sample.env, Sample.unmarshalCBOR, Sample.decode_encodePayload, hne, hct,
        Sample.msgVerify, List.append_assoc]

/-- C1 as stated fails: with the content type consisting of the byte 0xff,
which is not UTF-8, `sign` returns normally and writes an envelope to
sig.cbor, and `verify` with the public key of the same key pair and the same
external data on those bytes returns no message and a decoding error.  The
environment is one that meets the go-cose contract. -/
theorem sign_verify_roundtrip_fails_on_invalid_text :
    CoseContract Sample.env ∧
    validUTF8 [0xff] = false ∧
    sign Sample.env (some Sample.keyA) [104, 105] [] [0xff] =
      ⟨.ok (), [.newSigner AlgorithmES256 (some Sample.keyA),
        .sign1 (some ⟨AlgorithmES256, Sample.keyA⟩) (signProtected [0xff]) [104, 105] [],
        .marshalCBOR (some ⟨signProtected [0xff], [], [104, 105], [11, 22, 105, 104]⟩),
        .osCreate "sig.cbor",
        .fileWrite (some ⟨"sig.cbor"⟩) [1, 0xff, 0, 1, 104, 1, 105, 0, 11, 22, 105, 104],
        .fileClose (some ⟨"sig.cbor"⟩)]⟩ ∧
    (verify Sample.env (some Sample.keyA.PublicKey)
        [1, 0xff, 0, 1, 104, 1, 105, 0, 11, 22, 105, 104] []).res =
      .ok (none, some "cbor: invalid UTF-8 string") :=
  ⟨Sample.env_contract, by decide, by decide, by decide⟩

/-- C1, amended: under the go-cose contract, for a key that `cose.NewSigner`
and `cose.NewVerifier` accept for ES256, any payload and external data, and
any content type that is valid UTF-8 (the empty one included), in a run where
the steps of `sign` report no error: `sign` returns normally after writing the
encoded message to sig.cbor, and `verify` with the public key and the same
external data on the bytes written returns a message and no error, and the
payload of that message is the payload that was signed. -/
theorem sign_verify_roundtrip (E : Env) (hE : CoseContract E) (K : PrivateKey)
    (P aad ct : Bytes) (s : Signer) (v : Verifier) (f : Option File)
    (hct : validUTF8 ct = true)
    (hs : E.newSigner AlgorithmES256 (some K) = (some s, none))
    (hv : E.newVerifier AlgorithmES256 (some K.PublicKey) = (some v, none))
    (hrand : (E.sign1 .Reader (some s) (signProtected ct) P aad).2 = none)
    (hmarshal :
      (E.marshalCBOR (E.sign1 .Reader (some s) (signProtected ct) P aad).1).2 = none)
    (hcreate : E.osCreate "sig.cbor" = (f, none))
    (hwrite : ∀ b : Bytes, E.fileWrite f b = ((b.length : Int), none)) :
    ∃ m sig,
      sign E (some K) P aad ct =
        ⟨.ok (), [.newSigner AlgorithmES256 (some K),
          .sign1 (some s) (signProtected ct) P aad, .marshalCBOR (some m),
          .osCreate "sig.cbor", .fileWrite f sig, .fileClose f]⟩ ∧
      ∃ m₂, (verify E (some K.PublicKey) sig aad).res = .ok (some m₂, none) ∧
        m₂.Payload = P := by
  obtain ⟨m, hm⟩ := hE.sign1_message (some s) (signProtected ct) P aad hrand
  have hsign : E.sign1 .Reader (some s) (signProtected ct) P aad = (some m, none) :=
    Prod.ext hm hrand
  rw [hm] at hmarshal
  rcases hb : E.marshalCBOR (some m) with ⟨sig, eb⟩
  rw [hb] at hmarshal
  simp only at hmarshal
  subst hmarshal
  obtain ⟨hprot, hP, hok⟩ := hE.sign1_sound K s v (signProtected ct) P aad m hs hv hsign
  have hvalid : HeaderTextValid m.Protected := by
    intro k t ht
    rw [hprot] at ht
    rw [signProtected_text ct k t ht]
    exact hct
  obtain ⟨hu, hpay, hver⟩ := hE.cbor_roundtrip m sig hvalid hb
  refine ⟨m, sig, ?_, (E.unmarshalCBOR sig).1, ?_, ?_⟩
  · simp [sign, hs, hsign, hb, hcreate, hwrite, bind, Run.bind, emit, pure, deferClose]
  · rcases hd : E.unmarshalCBOR sig with ⟨m₂, eu⟩
    rw [hd] at hu hver
    simp only at hu hver
    subst hu
    have hv₂ : E.msgVerify m₂ aad (some v) = none := by rw [hver, hok]
    simp [verify, hv, hd, hv₂, bind, Run.bind, emit, pure]
  · rw [hpay, hP]

/-- C1, amended, on concrete inputs: key A, the payload "hi", the content type
"a/b" and one byte of external data. -/
theorem sign_verify_roundtrip_witness :
    ∃ m sig,
      sign Sample.env (some Sample.keyA) [104, 105] [9] [97, 47, 98] =
        ⟨.ok (), [.newSigner AlgorithmES256 (some Sample.keyA),
          .sign1 (some ⟨AlgorithmES256, Sample.keyA⟩) (signProtected [97, 47, 98])
            [104, 105] [9],
          .marshalCBOR (some m),
          .osCreate "sig.cbor", .fileWrite (some ⟨"sig.cbor"⟩) sig,
          .fileClose (some ⟨"sig.cbor"⟩)]⟩ ∧
      ∃ m₂, (verify Sample.env (some Sample.keyA.PublicKey) sig [9]).res = .ok (some m₂, none) ∧
        m₂.Payload = [104, 105] :=
  sign_verify_roundtrip Sample.env Sample.env_contract Sample.keyA [104, 105] [9] [97, 47, 98]
    ⟨AlgorithmES256, Sample.keyA⟩ ⟨AlgorithmES256, Sample.keyA.PublicKey⟩ (some ⟨"sig.cbor"⟩)
    (by decide) (by decide) (by decide) (by decide) (by decide) rfl (fun _ => rfl)

/-- C9: `sign` does not stop at a failed signing step.  In a run where the
random source fails, `cose.Sign1` reports the failure and returns nil, and
`sign` goes on to call `MarshalCBOR` on that nil message; the panic carries
the error of `MarshalCBOR` and the error of `cose.Sign1` is not reported.  In
every run `sign` calls `MarshalCBOR` on whatever `cose.Sign1` returned. -/
theorem sign_continues_after_signing_error :
    sign Sample.envNoEntropy (some Sample.keyA) [104, 105] [] [] =
      ⟨.panic (.error "cbor: MarshalCBOR on nil Sign1Message pointer"),
       [.newSigner AlgorithmES256 (some Sample.keyA),
        .sign1 (some ⟨AlgorithmES256, Sample.keyA⟩) (signProtected []) [104, 105] [],
        .marshalCBOR none,
        .print "Failed to marshal signature into CBOR\n"]⟩ ∧
    (Sample.envNoEntropy.sign1 .Reader (some ⟨AlgorithmES256, Sample.keyA⟩) (signProtected [])
        [104, 105] []).2 = some "entropy source unavailable" ∧
    (∀ (E : Env) (pk : Option PrivateKey) (c eaad ctype : Bytes),
      Event.marshalCBOR
          (E.sign1 .Reader (E.newSigner AlgorithmES256 pk).1 (signProtected ctype) c eaad).1
        ∈ (sign E pk c eaad ctype).trace) := by
  refine ⟨by decide, by decide, ?_⟩
  intro E pk c eaad ctype
  simp [sign, bind, Run.bind, emit]

/-- C10: in verification mode `main` calls `verify` after a failed
`loadPublicKey`.  With a key file that does not exist, and with a key file of
the wrong type, `main` passes the nil key to `verify`, and the panic carries
the error of `verify`; the error of `loadPublicKey` is not reported.  In every
run the key that `loadPublicKey` returns next to an error is handed to
`cose.NewVerifier`. -/
theorem main_verifies_after_load_error :
    main Sample.env ⟨"", false, "absent.pem", "", "hello", "", [], "text"⟩ =
      ⟨.panic (.error "invalid public key"),
       [.osOpen "absent.pem", .print "Could not open key file\n",
        .newVerifier AlgorithmES256 none]⟩ ∧
    (loadPublicKey Sample.env "absent.pem").res =
      .ok (none, some "open absent.pem: no such file or directory") ∧
    (main Sample.env ⟨"", false, "private.pem", "", "hello", "", [], "text"⟩).res =
      .panic (.error "invalid public key") ∧
    (loadPublicKey Sample.env "private.pem").res = .ok (none, some "Invalid key type") ∧
    (∀ (E : Env) (fl : Flags) (c eaad : Bytes) (pk : Option PublicKey) (err : Error),
      (loadPublicKey E fl.k).res = .ok (pk, some err) →
      Event.newVerifier AlgorithmES256 pk ∈ (mainVerify E fl c eaad).trace) := by
  refine ⟨by decide, by decide, by decide, by decide, ?_⟩
  intro E fl c eaad pk err h
  unfold mainVerify
  refine Run.mem_bind_right _ _ (pk, some err) h _ ?_
  refine Run.mem_bind_left _ _ _ ?_
  unfold verify
  exact Run.mem_bind_left _ _ _ (by simp [emit])

end Coset
